import Mathlib

/-!
Verification of the STM32BinaryFlasher repository (src/stlink.py, src/flasher.py).

The Python code is shallowly embedded: Python strings become `List Char`,
Python dicts (used as ad-hoc records) become insertion-ordered association
lists `Dict`, and Python exceptions become an explicit `PyOutcome` result.
All string manipulation used by the source (`split`, `strip`, `replace`,
`int(...)`, `int(..., 16)`, `endswith`) is embedded with the Python
semantics the source relies on.
-/

namespace STM32Flasher

/-- Python exceptions raised (or surfaced) by the code under test. -/
inductive PyExn where
  | valueError
  | keyError
  | indexError
  | typeError
  | connectionError
  | fileNotFound
  | runtimeError
  deriving DecidableEq, Repr

/-- Result of running a Python snippet: a value or a raised exception. -/
inductive PyOutcome (α : Type) where
  | ok (a : α)
  | exn (e : PyExn)
  deriving DecidableEq, Repr

/-- A Python value stored in one of the ad-hoc record dictionaries:
either an `int` or a `str`. -/
inductive PyVal where
  | pint (n : Int)
  | pstr (s : List Char)
  deriving DecidableEq, Repr

/-- A Python dict used as a record: insertion-ordered association list. -/
abbrev Dict := List (List Char × PyVal)

/-- Python `d[k]` lookup (first matching key). -/
def dlookup (k : List Char) : Dict → Option PyVal
  | [] => none
  | (k1, v) :: d => if k1 = k then some v else dlookup k d

/-- Python `d[k] = v`: replace the value in place if the key exists,
otherwise append the new binding (insertion order preserved). -/
def setk (d : Dict) (k : List Char) (v : PyVal) : Dict :=
  if (dlookup k d).isSome then
    d.map (fun p => if p.1 = k then (k, v) else p)
  else
    d ++ [(k, v)]

/-! ### Python string primitives over `List Char` -/

/-- Python `s.split(c)` for a one-character separator: splits at every
occurrence, keeping empty pieces (`"a  b".split(' ') == ['a','','b']`). -/
def splitOn (c : Char) : List Char → List (List Char)
  | [] => [[]]
  | x :: xs =>
    if x = c then [] :: splitOn c xs
    else
      match splitOn c xs with
      | [] => [[x]]
      | p :: ps => (x :: p) :: ps

/-- Python `s.strip(chars)` generalised to a character predicate: drop the
longest run satisfying `p` from both ends. -/
def stripBy (p : Char → Bool) (l : List Char) : List Char :=
  ((l.dropWhile p).reverse.dropWhile p).reverse

/-- Python `s.strip(c)` for a single strip character. -/
def stripCh (c : Char) (l : List Char) : List Char := stripBy (· = c) l

/-- Python `s.strip()` (whitespace at both ends). -/
def stripWS (l : List Char) : List Char := stripBy Char.isWhitespace l

/-- Python `s.replace('\\x', '')`: remove each (non-overlapping,
left-to-right) occurrence of the two-character sequence backslash-`x`. -/
def removeEsc : List Char → List Char
  | [] => []
  | '\\' :: 'x' :: rest => removeEsc rest
  | c :: rest => c :: removeEsc rest

/-- Decimal value of a digit string (most significant first). -/
def digitsVal (l : List Char) : Nat :=
  l.foldl (fun acc c => 10 * acc + (c.toNat - 48)) 0

/-- Scanner for the tail of a Python `digitpart` (PEP 515): digits with
single underscore separators between them.  The flag records whether the
previous character was a separator (which must be followed by a digit). -/
def undRun (isD : Char → Bool) : Bool → List Char → Bool
  | b, [] => !b
  | b, c :: cs =>
    if c = '_' then (if b then false else undRun isD true cs)
    else isD c && undRun isD false cs

/-- The tail of a Python `digitpart`: `(["_"] digit)*`. -/
def undTail (isD : Char → Bool) (l : List Char) : Bool := undRun isD false l

/-- A Python `digitpart`: `digit (["_"] digit)*` — one or more digits with
single underscore separators between them. -/
def undDigits (isD : Char → Bool) : List Char → Bool
  | [] => false
  | c :: cs => isD c && undTail isD cs

/-- Python `int(s)` on a whitespace-free token: optional sign followed by
a decimal `digitpart` (underscore digit separators allowed, PEP 515);
`none` models the `ValueError`, and underscores are ignored in the
value. -/
def pyIntDec (s : List Char) : Option Int :=
  match s with
  | [] => none
  | c :: cs =>
    if c = '-' then
      (if undDigits Char.isDigit cs then
        some (-(digitsVal (cs.filter (· ≠ '_')) : Int)) else none)
    else if c = '+' then
      (if undDigits Char.isDigit cs then
        some (digitsVal (cs.filter (· ≠ '_')) : Int) else none)
    else if undDigits Char.isDigit (c :: cs) then
      some (digitsVal ((c :: cs).filter (· ≠ '_')) : Int)
    else none

/-- Is `c` a hexadecimal digit (either case)? -/
def isHexDig (c : Char) : Bool :=
  c.isDigit || ('a' ≤ c && c ≤ 'f') || ('A' ≤ c && c ≤ 'F')

/-- Value of one hexadecimal digit (0 outside the hex-digit range). -/
def hexDigitVal (c : Char) : Nat :=
  if c.isDigit then c.toNat - 48
  else if 'a' ≤ c ∧ c ≤ 'f' then c.toNat - 97 + 10
  else if 'A' ≤ c ∧ c ≤ 'F' then c.toNat - 65 + 10
  else 0

/-- Hexadecimal value of a hex-digit string (most significant first). -/
def hexValNat (l : List Char) : Nat :=
  l.foldl (fun acc c => 16 * acc + hexDigitVal c) 0

/-- Does `s` match the body of a Python base-16 integer string: an
optional `0x`/`0X` prefix followed by hex digits with underscore
separators (after a prefix, an underscore may also precede the first
digit, as in `0x_451`)? -/
def hexAccept (s : List Char) : Bool :=
  match s with
  | a :: b :: rest =>
    if a = '0' ∧ (b = 'x' ∨ b = 'X') then !rest.isEmpty && undTail isHexDig rest
    else undDigits isHexDig s
  | _ => undDigits isHexDig s

/-- The value of such a body, underscores ignored. -/
def hexValU (s : List Char) : Nat :=
  match s with
  | a :: b :: rest =>
    if a = '0' ∧ (b = 'x' ∨ b = 'X') then hexValNat (rest.filter (· ≠ '_'))
    else hexValNat (s.filter (· ≠ '_'))
  | _ => hexValNat (s.filter (· ≠ '_'))

/-- Python `int(s, 16)` on a whitespace-free token: optional sign,
optional `0x` prefix, one or more hex digits with underscore separators
(PEP 515); `none` models the `ValueError`. -/
def pyIntHex (s : List Char) : Option Int :=
  match s with
  | [] => none
  | c :: cs =>
    if c = '-' then (if hexAccept cs then some (-(hexValU cs : Int)) else none)
    else if c = '+' then (if hexAccept cs then some (hexValU cs : Int) else none)
    else if hexAccept (c :: cs) then some (hexValU (c :: cs) : Int) else none

/-- Python `filename.endswith(".json")`. -/
def jsonExt (f : List Char) : Bool := ".json".data.isSuffixOf f

/-! ### Probe parser: `STLink_USBInterface._stlink_probe` (src/stlink.py:154-191)

The raw probe stdout is split on newlines, each line stripped, blank lines
dropped.  If the first line is exactly `"Found 0 stlink programmers"` no
records are parsed; otherwise the count is read from the second token of
the first line and that many six-line blocks are parsed into dicts of
`key: value` pairs, after which `serial`, `flash`, `sram` are coerced as
decimal integers, `chipid` as a hexadecimal integer, and `openocd` is
stripped of double quotes and `\x` escape artifacts.  Any Python exception
(IndexError / KeyError / ValueError) aborts the whole call. -/

/-- The cleanup applied to the raw probe stdout (split, strip, drop blanks):
`probe_data` in the source. -/
def cleanChars (l : List Char) : List (List Char) :=
  ((splitOn '\n' l).map stripWS).filter (· ≠ [])

/-- Builds the raw per-device dict from the lines of one record block:
each line split on spaces, key = token 0 with colons stripped,
value = token 1 (`IndexError` if a line has fewer than two tokens). -/
def buildRaw (d : Dict) : List (List Char) → PyOutcome Dict
  | [] => .ok d
  | line :: rest =>
    match splitOn ' ' line with
    | k :: v :: _ => buildRaw (setk d (stripCh ':' k) (.pstr v)) rest
    | _ => .exn .indexError

/-- Reads a field expected to hold a string; `KeyError` when absent. -/
def getStr (d : Dict) (k : List Char) : PyOutcome (List Char) :=
  match dlookup k d with
  | some (.pstr v) => .ok v
  | some (.pint _) => .exn .typeError
  | none => .exn .keyError

/-- The "special filtering" block of `_stlink_probe` (lines 185-191):
coerce `serial`, `flash`, `sram` via `int(...)`, `chipid` via
`int(..., 16)`, then strip quotes from `openocd` and remove `\x`. -/
def coerceDevice (d0 : Dict) : PyOutcome Dict :=
  match getStr d0 "serial".data with
  | .exn e => .exn e
  | .ok sv =>
    match pyIntDec sv with
    | none => .exn .valueError
    | some s =>
      let d1 := setk d0 "serial".data (.pint s)
      match getStr d1 "flash".data with
      | .exn e => .exn e
      | .ok fv =>
        match pyIntDec fv with
        | none => .exn .valueError
        | some f =>
          let d2 := setk d1 "flash".data (.pint f)
          match getStr d2 "sram".data with
          | .exn e => .exn e
          | .ok rv =>
            match pyIntDec rv with
            | none => .exn .valueError
            | some r =>
              let d3 := setk d2 "sram".data (.pint r)
              match getStr d3 "chipid".data with
              | .exn e => .exn e
              | .ok cv =>
                match pyIntHex cv with
                | none => .exn .valueError
                | some c =>
                  let d4 := setk d3 "chipid".data (.pint c)
                  match getStr d4 "openocd".data with
                  | .exn e => .exn e
                  | .ok ov =>
                    let d5 := setk d4 "openocd".data (.pstr (stripCh '"' ov))
                    match getStr d5 "openocd".data with
                    | .exn e => .exn e
                    | .ok ov2 =>
                      .ok (setk d5 "openocd".data (.pstr (removeEsc ov2)))

/-- Parses one six-line record block into a coerced device dict. -/
def parseDevice (block : List (List Char)) : PyOutcome Dict :=
  match buildRaw [] block with
  | .exn e => .exn e
  | .ok d => coerceDevice d

/-- The `for i in range(0, total_found)` loop: block `i` is the slice
`probe_data[6*i : 6*i+6]` of the remaining lines. -/
def parseLoop (lines : List (List Char)) : Nat → PyOutcome (List Dict)
  | 0 => .ok []
  | Nat.succ n =>
    match parseDevice (lines.take 6) with
    | .exn e => .exn e
    | .ok d =>
      match parseLoop (lines.drop 6) n with
      | .exn e => .exn e
      | .ok ds => .ok (d :: ds)

/-- `_stlink_probe` on the captured probe stdout, returning the list of
device dicts appended to `self.stlink_devices` (empty when the tool
reported zero programmers), or the Python exception that escaped. -/
def probeChars (stdout : List Char) : PyOutcome (List Dict) :=
  match cleanChars stdout with
  | [] => .exn .indexError
  | first :: rest =>
    if first = "Found 0 stlink programmers".data then .ok []
    else
      match (splitOn ' ' first).get? 1 with
      | none => .exn .indexError
      | some tok =>
        match pyIntDec tok with
        | none => .exn .valueError
        | some total => parseLoop rest total.toNat

/-- `_stlink_probe`, entry point on the stdout as a Python string. -/
def stlink_probe (stdout : String) : PyOutcome (List Dict) :=
  probeChars stdout.data

/-! ### Persistence: `save_device` / `load_device` (src/stlink.py:57-87)

The filesystem effects are made explicit as a trace of `FSOp` events; the
JSON (de)serialisation itself is an external collaborator trusted per the
spec, so the file content is modelled as the dict that was dumped. -/

/-- A filesystem access performed by save/load. -/
inductive FSOp where
  | openWrite (f : List Char)
  | writeDoc (d : Dict)
  | openRead (f : List Char)
  deriving DecidableEq, Repr

/-- `save_device(name, filename)`: result is the new `attached_device`
dict, the filesystem trace, and the outcome.  With no attached device
(empty dict is falsy) it only prints and returns normally; otherwise the
`name` field is assigned first and the `.json` extension is checked before
any file is opened. -/
def save_device (attached : Dict) (name fname : List Char) :
    Dict × List FSOp × PyOutcome Unit :=
  if attached = [] then
    (attached, [], .ok ())
  else
    let a1 := setk attached "name".data (.pstr name)
    if jsonExt fname then
      (a1, [.openWrite fname, .writeDoc a1], .ok ())
    else
      (a1, [], .exn .valueError)

/-- `load_device(filename)`: `fs` maps a filename to the dict stored in
it (none = no such file).  Result is the new `attached_device` (none =
unchanged), the filesystem trace, and the outcome; after a successful
read the `name` field is printed, raising `KeyError` if absent. -/
def load_device (fs : List Char → Option Dict) (fname : List Char) :
    Option Dict × List FSOp × PyOutcome Unit :=
  if jsonExt fname then
    match fs fname with
    | none => (none, [.openRead fname], .exn .fileNotFound)
    | some d =>
      match dlookup "name".data d with
      | some _ => (some d, [.openRead fname], .ok ())
      | none => (some d, [.openRead fname], .exn .keyError)
  else
    (none, [], .exn .valueError)

/-! ### External tool invocations and USB resolution -/

/-- The result of one `subprocess.run` invocation of an external tool. -/
structure ToolResult where
  returncode : Int
  stdout : List Char
  deriving DecidableEq, Repr

/-- `get_serial_number(port)` (src/stlink.py:112-123) applied to the
subprocess result of the scoped `st-info --serial` call: on exit code 0
the stdout is stripped of newlines and parsed with `int(...)`; on a
non-zero exit the method returns the sentinel `-1`. -/
def get_serial_number (res : ToolResult) : PyOutcome Int :=
  if res.returncode = 0 then
    match pyIntDec (stripCh '\n' res.stdout) with
    | some n => .ok n
    | none => .exn .valueError
  else .ok (-1)

/-- The environment seen by `get_port_from_serial`: the `device` path
strings of the ST-Link-vendor entries kept by `_get_usb_devices`
(shape `/dev/bus/usb/<bus>/<addr>`), and the scoped `st-info --serial`
subprocess result for each bus:addr port string. -/
structure USBEnv where
  devices : List (List Char)
  serialRead : List Char → ToolResult

/-- The `<bus>:<addr>` port string extracted from one `device` path:
`port_split = list(filter(None, dev.split('/')))`, then
`port_split[3] + ":" + port_split[4]`. -/
def portOf (dstr : List Char) : List Char :=
  let parts := (splitOn '/' dstr).filter (· ≠ [])
  parts.getD 3 [] ++ ":".data ++ parts.getD 4 []

/-- The loop body of `get_port_from_serial` over the enumerated devices. -/
def portScan (env : USBEnv) (serial : Int) : List (List Char) → PyOutcome (Option (List Char))
  | [] => .ok none
  | dstr :: rest =>
    let parts := (splitOn '/' dstr).filter (· ≠ [])
    match parts.get? 3, parts.get? 4 with
    | some b, some a =>
      let port := b ++ ":".data ++ a
      match get_serial_number (env.serialRead port) with
      | .exn e => .exn e
      | .ok n => if serial = n then .ok (some port) else portScan env serial rest
    | _, _ => .exn .indexError

/-- `get_port_from_serial(serial)` (src/stlink.py:96-110): linear scan of
the enumerated ST-Link entries, returning the first port whose scoped
serial-read equals the target, `none` (Python `None`) if no entry
matches. -/
def get_port_from_serial (env : USBEnv) (serial : Int) : PyOutcome (Option (List Char)) :=
  portScan env serial env.devices

/-- The in-memory attached device as used by `STLink.__init__`. -/
structure Attached where
  serial : Int
  usb_port : List Char
  name : List Char
  deriving DecidableEq, Repr

/-- `STLink.__init__` (src/stlink.py:225-237): confirm the cached port by
a scoped serial-read; on mismatch re-resolve the port from the serial
number via the full scan, update the cached `usb_port`, and raise
`ConnectionError` when the scan found nothing (a falsy port). -/
def stlink_init (env : USBEnv) (dev : Attached) : PyOutcome Attached :=
  match get_serial_number (env.serialRead dev.usb_port) with
  | .exn e => .exn e
  | .ok n =>
    if dev.serial ≠ n then
      match get_port_from_serial env dev.serial with
      | .exn e => .exn e
      | .ok none => .exn .connectionError
      | .ok (some p) =>
        if p = [] then .exn .connectionError else .ok { dev with usb_port := p }
    else .ok dev

/-- `STLink.flash` (src/stlink.py:246-253): builds the command string and
runs it; the subprocess result is ignored, the method raises nothing. -/
def stlink_flash (port binary_file link_address : List Char) (res : ToolResult) :
    List Char × PyOutcome Unit :=
  ("export STLINK_DEVICE=".data ++ port ++ "; st-flash write ".data ++
    binary_file ++ " ".data ++ link_address, .ok ())

/-- `STLink.erase` (src/stlink.py:239-244): same pattern, result ignored. -/
def stlink_erase (port : List Char) (res : ToolResult) : List Char × PyOutcome Unit :=
  ("export STLINK_DEVICE=".data ++ port ++ "; st-flash erase".data, .ok ())

/-- `STLink.reset` (src/stlink.py:255-260): same pattern, result ignored. -/
def stlink_reset (port : List Char) (res : ToolResult) : List Char × PyOutcome Unit :=
  ("export STLINK_DEVICE=".data ++ port ++ "; st-flash reset".data, .ok ())

/-- `STM32BinaryFlasher.flash_device` (src/flasher.py:71-78): runs the
flash command and raises `RuntimeError` on a non-zero exit status. -/
def flash_device (binary_root binary_file address : List Char) (res : ToolResult) :
    PyOutcome Unit :=
  if res.returncode ≠ 0 then .exn .runtimeError else .ok ()

/-! ### Utility lemmas -/

theorem splitOn_ne_nil (c : Char) (l : List Char) : splitOn c l ≠ [] := by
  induction l with
  | nil => simp [splitOn]
  | cons x xs ih =>
    simp only [splitOn]
    split
    · simp
    · match h : splitOn c xs with
      | [] => exact absurd h ih
      | p :: ps => simp

theorem splitOn_eq_single (c : Char) (l : List Char) (h : c ∉ l) :
    splitOn c l = [l] := by
  induction l with
  | nil => rfl
  | cons x xs ih =>
    simp only [List.mem_cons, not_or] at h
    simp only [splitOn, if_neg (Ne.symm h.1), ih h.2]

theorem splitOn_append (c : Char) (l r : List Char) (h : c ∉ l) :
    splitOn c (l ++ c :: r) = l :: splitOn c r := by
  induction l with
  | nil => simp [splitOn]
  | cons x xs ih =>
    simp only [List.mem_cons, not_or] at h
    rw [List.cons_append, splitOn, if_neg (Ne.symm h.1), ih h.2]

theorem stripBy_eq_self (p : Char → Bool) (l : List Char)
    (hh : ∀ c ∈ l.head?, p c = false) (hl : ∀ c ∈ l.getLast?, p c = false) :
    stripBy p l = l := by
  have h1 : l.dropWhile p = l := by
    cases l with
    | nil => rfl
    | cons x xs =>
      have := hh x (by simp)
      simp [List.dropWhile, this]
  have h2 : l.reverse.dropWhile p = l.reverse := by
    cases hr : l.reverse with
    | nil => rfl
    | cons y ys =>
      have hy : l.getLast? = some y := by
        rw [← List.head?_reverse, hr]; rfl
      have := hl y (by rw [hy]; rfl)
      simp [List.dropWhile, this]
  simp [stripBy, h1, h2]

theorem dlookup_map_upd_self (d : Dict) (k : List Char) (v : PyVal) :
    dlookup k (d.map (fun p => if p.1 = k then (k, v) else p)) =
      (dlookup k d).map (fun _ => v) := by
  induction d with
  | nil => rfl
  | cons p d ih =>
    obtain ⟨k1, v1⟩ := p
    rw [List.map_cons]
    by_cases h1 : k1 = k
    · rw [if_pos h1, dlookup, if_pos rfl, dlookup, if_pos h1, Option.map_some']
    · rw [if_neg h1, dlookup, if_neg h1, dlookup, if_neg h1, ih]

theorem dlookup_map_upd_ne (d : Dict) (k k2 : List Char) (v : PyVal) (h : k2 ≠ k) :
    dlookup k2 (d.map (fun p => if p.1 = k then (k, v) else p)) = dlookup k2 d := by
  induction d with
  | nil => rfl
  | cons p d ih =>
    obtain ⟨k1, v1⟩ := p
    rw [List.map_cons]
    by_cases h1 : k1 = k
    · rw [if_pos h1, dlookup, if_neg (fun he => h he.symm), dlookup,
        if_neg (fun he : k1 = k2 => h (he.symm.trans h1)), ih]
    · rw [if_neg h1]
      by_cases h2 : k1 = k2
      · rw [dlookup, if_pos h2, dlookup, if_pos h2]
      · rw [dlookup, if_neg h2, dlookup, if_neg h2, ih]

theorem dlookup_append_single (d : Dict) (k : List Char) (v : PyVal)
    (h : dlookup k d = none) :
    dlookup k (d ++ [(k, v)]) = some v := by
  induction d with
  | nil => rw [List.nil_append, dlookup, if_pos rfl]
  | cons p d ih =>
    obtain ⟨k1, v1⟩ := p
    by_cases h1 : k1 = k
    · rw [dlookup, if_pos h1] at h
      exact absurd h (by simp)
    · rw [dlookup, if_neg h1] at h
      rw [List.cons_append, dlookup, if_neg h1]
      exact ih h

theorem dlookup_append_single_ne (d : Dict) (k k2 : List Char) (v : PyVal)
    (h : k2 ≠ k) :
    dlookup k2 (d ++ [(k, v)]) = dlookup k2 d := by
  induction d with
  | nil =>
    simp only [List.nil_append, dlookup, if_neg (fun he : k = k2 => h he.symm)]
  | cons p d ih =>
    obtain ⟨k1, v1⟩ := p
    rw [List.cons_append]
    by_cases h1 : k1 = k2
    · rw [dlookup, if_pos h1, dlookup, if_pos h1]
    · rw [dlookup, if_neg h1, dlookup, if_neg h1, ih]

theorem dlookup_setk_self (d : Dict) (k : List Char) (v : PyVal) :
    dlookup k (setk d k v) = some v := by
  by_cases h : (dlookup k d).isSome
  · obtain ⟨w, hw⟩ := Option.isSome_iff_exists.mp h
    simp [setk, h, dlookup_map_upd_self, hw]
  · simp only [setk, if_neg h]
    exact dlookup_append_single d k v (Option.not_isSome_iff_eq_none.mp h)

theorem dlookup_setk_ne (d : Dict) (k k2 : List Char) (v : PyVal) (h : k2 ≠ k) :
    dlookup k2 (setk d k v) = dlookup k2 d := by
  by_cases hs : (dlookup k d).isSome
  · simp [setk, hs, dlookup_map_upd_ne _ _ _ _ h]
  · simp [setk, hs, dlookup_append_single_ne _ _ _ _ h]

/-! ### Decimal rendering of the adapter count and digit lemmas -/

/-- Canonical decimal rendering of a natural number (for building the
`Found N stlink programmers` line of a well-formed probe output). -/
def natDigits (n : Nat) : List Char :=
  if h : n < 10 then [Char.ofNat (48 + n)]
  else natDigits (n / 10) ++ [Char.ofNat (48 + n % 10)]
  termination_by n
  decreasing_by
    exact Nat.div_lt_self (by omega) (by omega)

theorem digitChar_spec (m : Nat) (h : m < 10) :
    (Char.ofNat (48 + m)).isDigit = true ∧ (Char.ofNat (48 + m)).toNat = 48 + m := by
  interval_cases m <;> exact ⟨by decide, by decide⟩

theorem digitsVal_append_single (l : List Char) (c : Char) :
    digitsVal (l ++ [c]) = 10 * digitsVal l + (c.toNat - 48) := by
  simp [digitsVal, List.foldl_append]

theorem natDigits_spec (n : Nat) :
    natDigits n ≠ [] ∧ (∀ c ∈ natDigits n, c.isDigit = true) ∧
      digitsVal (natDigits n) = n := by
  induction n using Nat.strong_induction_on with
  | _ n ih =>
    by_cases h : n < 10
    · rw [natDigits, dif_pos h]
      obtain ⟨hd, ht⟩ := digitChar_spec n h
      refine ⟨by simp, ?_, ?_⟩
      · intro c hc
        simp only [List.mem_singleton] at hc
        exact hc ▸ hd
      · simp [digitsVal, ht]
    · rw [natDigits, dif_neg h]
      have hlt : n / 10 < n := Nat.div_lt_self (by omega) (by omega)
      obtain ⟨ih1, ih2, ih3⟩ := ih (n / 10) hlt
      have hm : n % 10 < 10 := Nat.mod_lt _ (by omega)
      obtain ⟨hd, ht⟩ := digitChar_spec (n % 10) hm
      refine ⟨by simp, ?_, ?_⟩
      · intro c hc
        rcases List.mem_append.mp hc with hc | hc
        · exact ih2 c hc
        · simp only [List.mem_singleton] at hc
          exact hc ▸ hd
      · rw [digitsVal_append_single, ih3, ht]
        omega

theorem digit_not_ws (c : Char) (h : c.isDigit = true) : c.isWhitespace = false := by
  by_contra hc
  rw [Bool.not_eq_false] at hc
  simp only [Char.isWhitespace, Bool.or_eq_true, decide_eq_true_eq] at hc
  rcases hc with ((he | he) | he) | he <;> subst he <;> revert h <;> decide

theorem natDigits_no_ws (n : Nat) : ∀ c ∈ natDigits n, c.isWhitespace = false :=
  fun c hc => digit_not_ws c ((natDigits_spec n).2.1 c hc)

theorem digit_not_space (c : Char) (h : c.isDigit = true) : ¬ c = ' ' := by
  intro he
  subst he
  simp [Char.isDigit] at h

theorem digit_ne_underscore (c : Char) (h : c.isDigit = true) : c ≠ '_' := by
  intro he
  subst he
  exact absurd h (by decide)

theorem undTail_true_of_all (isD : Char → Bool) (l : List Char)
    (h : ∀ x ∈ l, isD x = true ∧ x ≠ '_') : undTail isD l = true := by
  rw [undTail]
  induction l with
  | nil => rfl
  | cons x xs ih =>
    obtain ⟨hx, hxu⟩ := h x (by simp)
    rw [undRun, if_neg hxu, hx, ih (fun y hy => h y (by simp [hy]))]
    rfl

theorem undDigits_true_of_digits (l : List Char) (h1 : l ≠ [])
    (h2 : ∀ c ∈ l, c.isDigit = true) : undDigits Char.isDigit l = true := by
  match l, h1 with
  | c :: cs, _ =>
    rw [undDigits, h2 c (by simp),
      undTail_true_of_all _ _ (fun y hy =>
        ⟨h2 y (by simp [hy]), digit_ne_underscore y (h2 y (by simp [hy]))⟩)]
    rfl

theorem filter_underscore_of_digits (l : List Char)
    (h : ∀ c ∈ l, c.isDigit = true) : l.filter (· ≠ '_') = l :=
  List.filter_eq_self.mpr
    (fun a ha => decide_eq_true (digit_ne_underscore a (h a ha)))

theorem pyIntDec_of_digits (l : List Char) (h1 : l ≠ []) (h2 : ∀ c ∈ l, c.isDigit = true) :
    pyIntDec l = some (digitsVal l : Int) := by
  match l, h1 with
  | c :: cs, _ =>
    have hc := h2 c (by simp)
    have hcm : ¬ c = '-' := by
      intro he; subst he; simp [Char.isDigit] at hc
    have hcp : ¬ c = '+' := by
      intro he; subst he; simp [Char.isDigit] at hc
    rw [pyIntDec, if_neg hcm, if_neg hcp,
      if_pos (undDigits_true_of_digits _ (by simp) h2),
      filter_underscore_of_digits _ h2]

theorem pyIntDec_natDigits (n : Nat) : pyIntDec (natDigits n) = some (n : Int) := by
  obtain ⟨h1, h2, h3⟩ := natDigits_spec n
  rw [pyIntDec_of_digits _ h1 h2, h3]

/-- A printable ASCII character that can never occur in a string accepted
by Python `int(s)`: not a decimal digit, not an underscore separator, not
a sign (and not whitespace, excluded by the printable range).  A token
containing such a character always fails decimal coercion. -/
def BadDecChar (c : Char) : Prop :=
  33 ≤ c.toNat ∧ c.toNat < 127 ∧ c.isDigit = false ∧ c ≠ '_' ∧ c ≠ '+' ∧ c ≠ '-'

instance (c : Char) : Decidable (BadDecChar c) := by
  unfold BadDecChar; infer_instance

/-- A printable ASCII character that can never occur in a string accepted
by Python `int(s, 16)`: not a hexadecimal digit, not an underscore, not a
sign, not a prefix letter `x`/`X`.  A token containing such a character
always fails hexadecimal coercion. -/
def BadHexChar (c : Char) : Prop :=
  33 ≤ c.toNat ∧ c.toNat < 127 ∧ isHexDig c = false ∧ c ≠ '_' ∧ c ≠ '+' ∧
    c ≠ '-' ∧ c ≠ 'x' ∧ c ≠ 'X'

instance (c : Char) : Decidable (BadHexChar c) := by
  unfold BadHexChar; infer_instance

theorem undRun_false_of_mem (isD : Char → Bool) (c : Char) (hc : isD c = false)
    (hcu : c ≠ '_') (l : List Char) :
    c ∈ l → ∀ b, undRun isD b l = false := by
  induction l with
  | nil => intro hm; cases hm
  | cons x xs ih =>
    intro hm b
    rw [undRun]
    by_cases hx : x = '_'
    · rw [if_pos hx]
      have hmxs : c ∈ xs := by
        rcases List.mem_cons.mp hm with h1 | h2
        · exact absurd (h1.trans hx) hcu
        · exact h2
      cases b
      · rw [if_neg (by simp)]
        exact ih hmxs true
      · rfl
    · rw [if_neg hx]
      rcases List.mem_cons.mp hm with h1 | h2
      · rw [← h1, hc]
        rfl
      · rw [ih h2 false]
        simp

theorem undDigits_false_of_mem (isD : Char → Bool) (c : Char) (hc : isD c = false)
    (hcu : c ≠ '_') (l : List Char) (hm : c ∈ l) : undDigits isD l = false := by
  match l, hm with
  | x :: xs, hm =>
    rw [undDigits]
    rcases List.mem_cons.mp hm with h1 | h2
    · rw [← h1, hc]
      rfl
    · rw [undTail, undRun_false_of_mem isD c hc hcu xs h2 false]
      simp

theorem hexAccept_false_of_mem (c : Char) (hc : isHexDig c = false)
    (hcu : c ≠ '_') (hkx : c ≠ 'x') (hkX : c ≠ 'X') (s : List Char) (hm : c ∈ s) :
    hexAccept s = false := by
  match s, hm with
  | [a], hm =>
    show undDigits isHexDig [a] = false
    exact undDigits_false_of_mem _ c hc hcu _ hm
  | a :: b :: rest, hm =>
    show (if a = '0' ∧ (b = 'x' ∨ b = 'X')
      then !rest.isEmpty && undTail isHexDig rest
      else undDigits isHexDig (a :: b :: rest)) = false
    by_cases hpre : a = '0' ∧ (b = 'x' ∨ b = 'X')
    · rw [if_pos hpre]
      rcases List.mem_cons.mp hm with h1 | hm2
      · rw [h1.trans hpre.1] at hc
        exact absurd hc (by decide)
      · rcases List.mem_cons.mp hm2 with h2 | hm3
        · rcases hpre.2 with hb | hb
          · exact absurd (h2.trans hb) hkx
          · exact absurd (h2.trans hb) hkX
        · rw [undTail, undRun_false_of_mem _ c hc hcu rest hm3 false]
          simp
    · rw [if_neg hpre]
      exact undDigits_false_of_mem _ c hc hcu _ hm

theorem pyIntDec_none_of_badchar (tok : List Char) (c : Char) (hm : c ∈ tok)
    (hbad : BadDecChar c) : pyIntDec tok = none := by
  obtain ⟨-, -, hdig, hund, hplus, hminus⟩ := hbad
  match tok, hm with
  | c0 :: cs, hm =>
    rw [pyIntDec]
    by_cases h0 : c0 = '-'
    · have hmcs : c ∈ cs := by
        rcases List.mem_cons.mp hm with h1 | h2
        · exact absurd (h1.trans h0) hminus
        · exact h2
      rw [if_pos h0, undDigits_false_of_mem _ c hdig hund cs hmcs]
      rfl
    · rw [if_neg h0]
      by_cases h1 : c0 = '+'
      · have hmcs : c ∈ cs := by
          rcases List.mem_cons.mp hm with h2 | h3
          · exact absurd (h2.trans h1) hplus
          · exact h3
        rw [if_pos h1, undDigits_false_of_mem _ c hdig hund cs hmcs]
        rfl
      · rw [if_neg h1, undDigits_false_of_mem _ c hdig hund _ hm]
        rfl

theorem pyIntHex_none_of_badchar (tok : List Char) (c : Char) (hm : c ∈ tok)
    (hbad : BadHexChar c) : pyIntHex tok = none := by
  obtain ⟨-, -, hdig, hund, hplus, hminus, hkx, hkX⟩ := hbad
  match tok, hm with
  | c0 :: cs, hm =>
    rw [pyIntHex]
    by_cases h0 : c0 = '-'
    · have hmcs : c ∈ cs := by
        rcases List.mem_cons.mp hm with h1 | h2
        · exact absurd (h1.trans h0) hminus
        · exact h2
      rw [if_pos h0, hexAccept_false_of_mem c hdig hund hkx hkX cs hmcs]
      rfl
    · rw [if_neg h0]
      by_cases h1 : c0 = '+'
      · have hmcs : c ∈ cs := by
          rcases List.mem_cons.mp hm with h2 | h3
          · exact absurd (h2.trans h1) hplus
          · exact h3
        rw [if_pos h1, hexAccept_false_of_mem c hdig hund hkx hkX cs hmcs]
        rfl
      · rw [if_neg h1, hexAccept_false_of_mem c hdig hund hkx hkX _ hm]
        rfl

/-! ### Well-formed probe outputs for the parser correctness claim

A well-formed probe output is the `Found N stlink programmers` line
followed by `N` six-line record blocks in the field order printed by
`st-info --probe` (`serial`, `openocd`, `flash`, `sram`, `chipid`,
`descr`), each line a `key: value` pair. -/

/-- The raw value tokens of one record block of a probe output. -/
structure RawDevice where
  serialTok : List Char
  openocdTok : List Char
  flashTok : List Char
  sramTok : List Char
  chipidTok : List Char
  descrTok : List Char
  deriving DecidableEq, Repr

/-- A whitespace-free nonempty value token. -/
def TokOK (t : List Char) : Prop :=
  t ≠ [] ∧ ∀ c ∈ t, c.isWhitespace = false

instance (t : List Char) : Decidable (TokOK t) := by
  unfold TokOK; infer_instance

/-- Token-level well-formedness of one record block: every value token is
a whitespace-free nonempty word and the `serial`/`flash`/`sram` tokens are
decimal digit strings. -/
def WFTokens (d : RawDevice) : Prop :=
  (d.serialTok ≠ [] ∧ ∀ c ∈ d.serialTok, c.isDigit = true) ∧
  (d.flashTok ≠ [] ∧ ∀ c ∈ d.flashTok, c.isDigit = true) ∧
  (d.sramTok ≠ [] ∧ ∀ c ∈ d.sramTok, c.isDigit = true) ∧
  TokOK d.chipidTok ∧ TokOK d.openocdTok ∧ TokOK d.descrTok

instance (d : RawDevice) : Decidable (WFTokens d) := by
  unfold WFTokens; infer_instance

/-- Well-formedness of one record block: well-formed tokens whose `chipid`
token also parses as a hexadecimal integer. -/
def WFDevice (d : RawDevice) : Prop :=
  WFTokens d ∧ (pyIntHex d.chipidTok).isSome = true

instance (d : RawDevice) : Decidable (WFDevice d) := by
  unfold WFDevice; infer_instance

/-- The six lines of one record block as printed by the probe tool. -/
def renderDevice (d : RawDevice) : List (List Char) :=
  ["serial: ".data ++ d.serialTok,
   "openocd: ".data ++ d.openocdTok,
   "flash: ".data ++ d.flashTok,
   "sram: ".data ++ d.sramTok,
   "chipid: ".data ++ d.chipidTok,
   "descr: ".data ++ d.descrTok]

/-- Joins lines into a newline-terminated text block. -/
def joinNL (lines : List (List Char)) : List Char :=
  lines.foldr (fun l acc => l ++ '\n' :: acc) []

/-- A complete well-formed probe output for the given record blocks. -/
def render (ds : List RawDevice) : List Char :=
  joinNL (("Found ".data ++ natDigits ds.length ++ " stlink programmers".data)
    :: ds.flatMap renderDevice)

/-- The device dict `_stlink_probe` is expected to build from one
well-formed record block, with the type coercions of the source applied:
`serial`/`flash`/`sram` as decimal integers, `chipid` as a hexadecimal
integer, `openocd` stripped of quotes and `\x` artifacts, `descr` kept
as the raw token. -/
def expectedDevice (d : RawDevice) : Dict :=
  [("serial".data, .pint (digitsVal d.serialTok : Int)),
   ("openocd".data, .pstr (removeEsc (stripCh '"' d.openocdTok))),
   ("flash".data, .pint (digitsVal d.flashTok : Int)),
   ("sram".data, .pint (digitsVal d.sramTok : Int)),
   ("chipid".data, .pint ((pyIntHex d.chipidTok).getD 0)),
   ("descr".data, .pstr d.descrTok)]

/-! ### Cleanup lemmas: the rendered output survives split / strip / filter -/

/-- Conditions under which a line passes `cleanChars` unchanged. -/
def LineOK (l : List Char) : Prop :=
  l ≠ [] ∧ '\n' ∉ l ∧ stripWS l = l

instance (l : List Char) : Decidable (LineOK l) := by
  unfold LineOK; infer_instance

theorem lineOK_of_parts (pre tok : List Char) (c0 : Char) (rest : List Char)
    (hpre : pre = c0 :: rest) (hc0 : c0.isWhitespace = false) (hpreNL : '\n' ∉ pre)
    (htok : tok ≠ []) (htokWS : ∀ c ∈ tok, c.isWhitespace = false) :
    LineOK (pre ++ tok) := by
  subst hpre
  refine ⟨by simp, ?_, ?_⟩
  · intro hmem
    rcases List.mem_append.mp hmem with hm | hm
    · exact hpreNL hm
    · have := htokWS _ hm
      simp at this
  · apply stripBy_eq_self
    · intro c hc
      rw [List.cons_append, List.head?_cons, Option.mem_def, Option.some_inj] at hc
      exact hc ▸ hc0
    · intro c hc
      rw [List.getLast?_append_of_ne_nil _ htok] at hc
      have hmem : c ∈ tok := by
        rw [List.getLast?_eq_getLast_of_ne_nil htok, Option.mem_def,
          Option.some_inj] at hc
        exact hc ▸ List.getLast_mem htok
      exact htokWS c hmem

theorem lineOK_firstLine (N : Nat) :
    LineOK ("Found ".data ++ natDigits N ++ " stlink programmers".data) := by
  refine ⟨by simp, ?_, ?_⟩
  · intro hmem
    rcases List.mem_append.mp hmem with hm | hm
    · rcases List.mem_append.mp hm with hm2 | hm2
      · revert hm2; decide
      · have := natDigits_no_ws N _ hm2
        simp at this
    · revert hm; decide
  · apply stripBy_eq_self
    · intro c hc
      rw [List.append_assoc, List.head?_append_of_ne_nil _ (by decide),
        show "Found ".data.head? = some 'F' from rfl, Option.mem_def,
        Option.some_inj] at hc
      exact hc ▸ (by decide)
    · intro c hc
      rw [List.getLast?_append_of_ne_nil _ (by decide),
        show " stlink programmers".data.getLast? = some 's' from by decide,
        Option.mem_def, Option.some_inj] at hc
      exact hc ▸ (by decide)

theorem cleanChars_joinNL (lines : List (List Char)) (h : ∀ l ∈ lines, LineOK l) :
    cleanChars (joinNL lines) = lines := by
  induction lines with
  | nil => rfl
  | cons l ls ih =>
    obtain ⟨h1, h2, h3⟩ := h l (by simp)
    have ihh := ih (fun x hx => h x (List.mem_cons_of_mem _ hx))
    unfold cleanChars at ihh ⊢
    rw [show joinNL (l :: ls) = l ++ '\n' :: joinNL ls from rfl,
      splitOn_append _ _ _ h2, List.map_cons, h3, List.filter_cons,
      if_pos (decide_eq_true h1), ihh]

/-! ### Parsing one well-formed record block -/

theorem splitOn_key_line (key tok : List Char) (hk : ' ' ∉ key) (ht : ' ' ∉ tok) :
    splitOn ' ' (key ++ ' ' :: tok) = [key, tok] := by
  rw [splitOn_append _ _ _ hk, splitOn_eq_single _ _ ht]

theorem no_space_of_digits (l : List Char) (h : ∀ c ∈ l, c.isDigit = true) :
    ' ' ∉ l :=
  fun hm => digit_not_space ' ' (h ' ' hm) rfl

theorem no_space_of_tokOK (l : List Char) (h : TokOK l) : ' ' ∉ l := by
  intro hm
  have := h.2 ' ' hm
  simp at this

/-- The raw (pre-coercion) dict built from one rendered record block. -/
def rawDict (d : RawDevice) : Dict :=
  [("serial".data, .pstr d.serialTok),
   ("openocd".data, .pstr d.openocdTok),
   ("flash".data, .pstr d.flashTok),
   ("sram".data, .pstr d.sramTok),
   ("chipid".data, .pstr d.chipidTok),
   ("descr".data, .pstr d.descrTok)]

theorem buildRaw_renderDevice (d : RawDevice)
    (hs : ' ' ∉ d.serialTok) (ho : ' ' ∉ d.openocdTok) (hf : ' ' ∉ d.flashTok)
    (hr : ' ' ∉ d.sramTok) (hc : ' ' ∉ d.chipidTok) (hd2 : ' ' ∉ d.descrTok) :
    buildRaw [] (renderDevice d) = .ok (rawDict d) := by
  have e1 : splitOn ' ' ("serial: ".data ++ d.serialTok) =
      ["serial:".data, d.serialTok] :=
    splitOn_key_line "serial:".data d.serialTok (by decide) hs
  have e2 : splitOn ' ' ("openocd: ".data ++ d.openocdTok) =
      ["openocd:".data, d.openocdTok] :=
    splitOn_key_line "openocd:".data d.openocdTok (by decide) ho
  have e3 : splitOn ' ' ("flash: ".data ++ d.flashTok) =
      ["flash:".data, d.flashTok] :=
    splitOn_key_line "flash:".data d.flashTok (by decide) hf
  have e4 : splitOn ' ' ("sram: ".data ++ d.sramTok) =
      ["sram:".data, d.sramTok] :=
    splitOn_key_line "sram:".data d.sramTok (by decide) hr
  have e5 : splitOn ' ' ("chipid: ".data ++ d.chipidTok) =
      ["chipid:".data, d.chipidTok] :=
    splitOn_key_line "chipid:".data d.chipidTok (by decide) hc
  have e6 : splitOn ' ' ("descr: ".data ++ d.descrTok) =
      ["descr:".data, d.descrTok] :=
    splitOn_key_line "descr:".data d.descrTok (by decide) hd2
  simp only [renderDevice, buildRaw, e1, e2, e3, e4, e5, e6]
  simp [rawDict, setk, dlookup, stripCh, stripBy]

theorem coerceDevice_rawDict (d : RawDevice) (h : WFDevice d) :
    coerceDevice (rawDict d) = .ok (expectedDevice d) := by
  obtain ⟨⟨⟨hs1, hs2⟩, ⟨hf1, hf2⟩, ⟨hr1, hr2⟩, -, -, -⟩, hcx⟩ := h
  obtain ⟨cv, hcv⟩ := Option.isSome_iff_exists.mp hcx
  have ps := pyIntDec_of_digits _ hs1 hs2
  have pf := pyIntDec_of_digits _ hf1 hf2
  have pr := pyIntDec_of_digits _ hr1 hr2
  simp only [coerceDevice, getStr, rawDict, dlookup, setk, expectedDevice,
    ps, pf, pr, hcv]
  simp [dlookup, setk, hcv]
  rw [ps, pf, pr]

theorem parseDevice_renderDevice (d : RawDevice) (h : WFDevice d) :
    parseDevice (renderDevice d) = .ok (expectedDevice d) := by
  have hs2 := h.1.1.2
  have hf2 := h.1.2.1.2
  have hr2 := h.1.2.2.1.2
  have hct := h.1.2.2.2.1
  have hot := h.1.2.2.2.2.1
  have hdt := h.1.2.2.2.2.2
  rw [parseDevice, buildRaw_renderDevice d (no_space_of_digits _ hs2)
    (no_space_of_tokOK _ hot) (no_space_of_digits _ hf2)
    (no_space_of_digits _ hr2) (no_space_of_tokOK _ hct)
    (no_space_of_tokOK _ hdt)]
  exact coerceDevice_rawDict d h

/-! ### The parse loop over all rendered blocks, and the first line -/

theorem parseLoop_flatMap (ds : List RawDevice) (h : ∀ d ∈ ds, WFDevice d) :
    parseLoop (ds.flatMap renderDevice) ds.length = .ok (ds.map expectedDevice) := by
  induction ds with
  | nil => rfl
  | cons d ds ih =>
    have h6 : (renderDevice d).length = 6 := rfl
    rw [List.flatMap_cons, List.length_cons, parseLoop,
      List.take_left' h6, List.drop_left' h6,
      parseDevice_renderDevice d (h d (by simp)),
      ih (fun x hx => h x (List.mem_cons_of_mem _ hx)), List.map_cons]

theorem splitOn_firstLine (N : Nat) :
    splitOn ' ' ("Found ".data ++ natDigits N ++ " stlink programmers".data) =
      ["Found".data, natDigits N, "stlink".data, "programmers".data] := by
  have hnd : ' ' ∉ natDigits N := fun hm => by
    have := natDigits_no_ws N ' ' hm
    simp at this
  have hsplit : "Found ".data ++ natDigits N ++ " stlink programmers".data =
      "Found".data ++ ' ' ::
        (natDigits N ++ ' ' :: ("stlink".data ++ ' ' :: "programmers".data)) := by
    rw [List.append_assoc]
    rfl
  rw [hsplit, splitOn_append _ _ _ (by decide), splitOn_append _ _ _ hnd,
    splitOn_append _ _ _ (by decide), splitOn_eq_single _ _ (by decide)]

theorem firstLine_ne_zero (N : Nat) (hN : N ≠ 0) :
    "Found ".data ++ natDigits N ++ " stlink programmers".data ≠
      "Found 0 stlink programmers".data := by
  intro he
  have hsp := congrArg (splitOn ' ') he
  rw [splitOn_firstLine,
    show splitOn ' ' "Found 0 stlink programmers".data =
      ["Found".data, ['0'], "stlink".data, "programmers".data] from by decide] at hsp
  have h0 : natDigits N = ['0'] := by
    simpa using congrArg (fun l => l.get? 1) hsp
  have hval := congrArg digitsVal h0
  rw [(natDigits_spec N).2.2,
    show digitsVal ['0'] = 0 from rfl] at hval
  exact hN hval

theorem probeChars_cons (stdout first : List Char) (rest : List (List Char))
    (h : cleanChars stdout = first :: rest) :
    probeChars stdout =
      (if first = "Found 0 stlink programmers".data then .ok []
       else
        match (splitOn ' ' first).get? 1 with
        | none => .exn .indexError
        | some tok =>
          match pyIntDec tok with
          | none => .exn .valueError
          | some total => parseLoop rest total.toNat) := by
  unfold probeChars
  rw [h]

/-- All six value tokens of a record block are whitespace-free nonempty
words (no constraint on what the coerced values parse to). -/
def AllTokOK (d : RawDevice) : Prop :=
  TokOK d.serialTok ∧ TokOK d.openocdTok ∧ TokOK d.flashTok ∧
  TokOK d.sramTok ∧ TokOK d.chipidTok ∧ TokOK d.descrTok

instance (d : RawDevice) : Decidable (AllTokOK d) := by
  unfold AllTokOK; infer_instance

theorem tokOK_of_digits (t : List Char) (h1 : t ≠ [])
    (h2 : ∀ c ∈ t, c.isDigit = true) : TokOK t :=
  ⟨h1, fun c hc => digit_not_ws c (h2 c hc)⟩

theorem allTokOK_of_WFTokens (d : RawDevice) (h : WFTokens d) : AllTokOK d := by
  obtain ⟨⟨hs1, hs2⟩, ⟨hf1, hf2⟩, ⟨hr1, hr2⟩, hct, hot, hdt⟩ := h
  exact ⟨tokOK_of_digits _ hs1 hs2, hot, tokOK_of_digits _ hf1 hf2,
    tokOK_of_digits _ hr1 hr2, hct, hdt⟩

theorem lineOK_renderDevice (d : RawDevice) (hw : AllTokOK d) :
    ∀ l ∈ renderDevice d, LineOK l := by
  obtain ⟨hs, ho, hf, hr, hc, hd⟩ := hw
  intro l hl
  simp only [renderDevice, List.mem_cons, List.not_mem_nil, or_false] at hl
  rcases hl with h | h | h | h | h | h
  · exact h ▸ lineOK_of_parts _ _ 's' _ rfl (by decide) (by decide) hs.1 hs.2
  · exact h ▸ lineOK_of_parts _ _ 'o' _ rfl (by decide) (by decide) ho.1 ho.2
  · exact h ▸ lineOK_of_parts _ _ 'f' _ rfl (by decide) (by decide) hf.1 hf.2
  · exact h ▸ lineOK_of_parts _ _ 's' _ rfl (by decide) (by decide) hr.1 hr.2
  · exact h ▸ lineOK_of_parts _ _ 'c' _ rfl (by decide) (by decide) hc.1 hc.2
  · exact h ▸ lineOK_of_parts _ _ 'd' _ rfl (by decide) (by decide) hd.1 hd.2

/-- C1: for every valid probe output whose first line reports `N ≥ 1`
adapters followed by `N` well-formed six-line `key: value` record blocks,
`_stlink_probe` returns exactly `N` device records, with `serial`, `flash`
and `sram` parsed as decimal integers, `chipid` parsed as a hexadecimal
integer, and the `openocd` firmware string stripped of surrounding quotes
and of literal backslash-escape artifacts. -/
theorem probe_parses_wellformed (ds : List RawDevice) (hne : ds ≠ [])
    (hwf : ∀ d ∈ ds, WFDevice d) :
    stlink_probe ⟨render ds⟩ = .ok (ds.map expectedDevice) := by
  have hclean : cleanChars (render ds) =
      ("Found ".data ++ natDigits ds.length ++ " stlink programmers".data)
        :: ds.flatMap renderDevice := by
    apply cleanChars_joinNL
    intro l hl
    rcases List.mem_cons.mp hl with h | h
    · exact h ▸ lineOK_firstLine ds.length
    · rw [List.mem_flatMap] at h
      obtain ⟨d, hd, hld⟩ := h
      exact lineOK_renderDevice d (allTokOK_of_WFTokens d (hwf d hd).1) l hld
  have hN : ds.length ≠ 0 := fun h0 => hne (List.length_eq_zero.mp h0)
  show probeChars (render ds) = _
  rw [probeChars_cons _ _ _ hclean, if_neg (firstLine_ne_zero _ hN),
    splitOn_firstLine]
  simp only [List.get?]
  rw [pyIntDec_natDigits]
  simp only [Int.toNat_natCast]
  exact parseLoop_flatMap ds hwf

/-- Witness for C1 at a concrete well-formed one-adapter probe output
(`chipid 0x0451` is coerced to the integer 1105, `serial 12345` to the
integer 12345, and the quoted, escaped `openocd` string to `3132`). -/
theorem probe_parses_wellformed_witness :
    stlink_probe ⟨render [⟨"12345".data, "\"\\x31\\x32\"".data, "1048576".data,
        "196608".data, "0x0451".data, "F7".data⟩]⟩ =
      .ok [[("serial".data, .pint 12345),
        ("openocd".data, .pstr "3132".data),
        ("flash".data, .pint 1048576),
        ("sram".data, .pint 196608),
        ("chipid".data, .pint 1105),
        ("descr".data, .pstr "F7".data)]] := by
  have h := probe_parses_wellformed
    [⟨"12345".data, "\"\\x31\\x32\"".data, "1048576".data,
      "196608".data, "0x0451".data, "F7".data⟩]
    (by decide) (by decide)
  exact h.trans (by decide)

/-! ### C4: zero adapters found -/

/-- C4: a probe output whose first cleaned line is the zero-adapters
report yields the empty record sequence and never a parse failure,
whatever the remaining lines contain — they are never fed to the
record-parsing loop. -/
theorem probe_zero_found (s : String) (rest : List (List Char))
    (h : cleanChars s.data = "Found 0 stlink programmers".data :: rest) :
    stlink_probe s = .ok [] := by
  show probeChars s.data = _
  rw [probeChars_cons _ _ _ h, if_pos rfl]

/-- Witness for C4: zero-found output followed by non-record garbage
still parses to the empty sequence. -/
theorem probe_zero_found_witness :
    stlink_probe "Found 0 stlink programmers\n not a record line\n" = .ok [] :=
  probe_zero_found _ ["not a record line".data] (by decide)

/-! ### C5: truncated blocks and failed coercions -/

/-- Counterexample to C5 as stated: a probe output whose single record
block is truncated to five lines — one field fewer than the required six
— is parsed without any failure, yielding a partially-populated record
that lacks the `descr` field. -/
theorem probe_truncated_partial_record :
    stlink_probe "Found 1 stlink programmers\n serial: 123\n openocd: \"ab\"\n flash: 1024\n sram: 512\n chipid: 0x0451\n" =
      .ok [[("serial".data, .pint 123), ("openocd".data, .pstr "ab".data),
        ("flash".data, .pint 1024), ("sram".data, .pint 512),
        ("chipid".data, .pint 1105)]] := by
  decide

/-- A probe output reporting one adapter whose record block is truncated
to its first `k` lines. -/
def renderTrunc (d : RawDevice) (k : Nat) : List Char :=
  joinNL ("Found 1 stlink programmers".data :: (renderDevice d).take k)

theorem probeChars_found_one (stdout : List Char) (rest : List (List Char))
    (h : cleanChars stdout = "Found 1 stlink programmers".data :: rest) :
    probeChars stdout = parseLoop rest 1 := by
  rw [probeChars_cons _ _ _ h, if_neg (by decide)]
  rfl

/-- Reduction of a one-adapter probe call on a full well-formed-token
block to its coercion stage: when the coercion raises, the probe call
raises the same exception. -/
theorem probe_single_of_coerce_exn (d : RawDevice) (hall : AllTokOK d)
    (e : PyExn) (hco : coerceDevice (rawDict d) = .exn e) :
    stlink_probe ⟨render [d]⟩ = .exn e := by
  obtain ⟨hs, ho, hf, hr, hc2, hd2⟩ := hall
  have hclean : cleanChars (render [d]) =
      ("Found ".data ++ natDigits 1 ++ " stlink programmers".data)
        :: [d].flatMap renderDevice := by
    apply cleanChars_joinNL
    intro l hl
    rcases List.mem_cons.mp hl with h | h
    · exact h ▸ lineOK_firstLine 1
    · rw [List.mem_flatMap] at h
      obtain ⟨x, hx, hlx⟩ := h
      rw [List.mem_singleton] at hx
      exact lineOK_renderDevice d ⟨hs, ho, hf, hr, hc2, hd2⟩ l (hx ▸ hlx)
  show probeChars (render [d]) = _
  rw [probeChars_cons _ _ _ hclean,
    if_neg (firstLine_ne_zero 1 (by decide)), splitOn_firstLine]
  simp only [List.get?]
  rw [pyIntDec_natDigits]
  show parseLoop ([d].flatMap renderDevice) 1 = _
  rw [parseLoop]
  rw [List.flatMap_cons, List.flatMap_nil, List.append_nil]
  rw [List.take_of_length_le (by rw [show (renderDevice d).length = 6 from rfl])]
  rw [parseDevice, buildRaw_renderDevice d (no_space_of_tokOK _ hs)
    (no_space_of_tokOK _ ho) (no_space_of_tokOK _ hf)
    (no_space_of_tokOK _ hr) (no_space_of_tokOK _ hc2)
    (no_space_of_tokOK _ hd2)]
  simp only [hco]

/-- C5 (amended): the probe call fails as a whole when a record block is
truncated so that one of the five coerced fields (`serial`, `flash`,
`sram`, `chipid`, `openocd`) is missing — any truncation to at most four
of the six lines — and likewise when the value of a coerced field fails
its integer coercion: a `serial`, `flash` or `sram` value containing a
character that can never occur in a Python decimal integer string, or a
`chipid` value containing a character that can never occur in a Python
base-16 integer string.  (Truncation that removes only the trailing
non-coerced `descr` field parses successfully; see the counterexample.) -/
theorem probe_fails_on_missing_or_bad_coerced_field :
    (∀ (d : RawDevice) (k : Nat), WFTokens d → k ≤ 4 →
      ∃ e, stlink_probe ⟨renderTrunc d k⟩ = .exn e) ∧
    (∀ (d : RawDevice) (c : Char), AllTokOK d →
      c ∈ d.serialTok → BadDecChar c →
      ∃ e, stlink_probe ⟨render [d]⟩ = .exn e) ∧
    (∀ (d : RawDevice) (c : Char), AllTokOK d →
      (d.serialTok ≠ [] ∧ ∀ x ∈ d.serialTok, x.isDigit = true) →
      c ∈ d.flashTok → BadDecChar c →
      ∃ e, stlink_probe ⟨render [d]⟩ = .exn e) ∧
    (∀ (d : RawDevice) (c : Char), AllTokOK d →
      (d.serialTok ≠ [] ∧ ∀ x ∈ d.serialTok, x.isDigit = true) →
      (d.flashTok ≠ [] ∧ ∀ x ∈ d.flashTok, x.isDigit = true) →
      c ∈ d.sramTok → BadDecChar c →
      ∃ e, stlink_probe ⟨render [d]⟩ = .exn e) ∧
    (∀ (d : RawDevice) (c : Char), AllTokOK d →
      (d.serialTok ≠ [] ∧ ∀ x ∈ d.serialTok, x.isDigit = true) →
      (d.flashTok ≠ [] ∧ ∀ x ∈ d.flashTok, x.isDigit = true) →
      (d.sramTok ≠ [] ∧ ∀ x ∈ d.sramTok, x.isDigit = true) →
      c ∈ d.chipidTok → BadHexChar c →
      ∃ e, stlink_probe ⟨render [d]⟩ = .exn e) := by
  refine ⟨?_, ?_, ?_, ?_, ?_⟩
  · intro d k hw hk
    have hall := allTokOK_of_WFTokens d hw
    obtain ⟨⟨hs1, hs2⟩, ⟨hf1, hf2⟩, ⟨hr1, hr2⟩, hct, hot, hdt⟩ := hw
    have hclean : cleanChars (renderTrunc d k) =
        "Found 1 stlink programmers".data :: (renderDevice d).take k := by
      apply cleanChars_joinNL
      intro l hl
      rcases List.mem_cons.mp hl with h | h
      · exact h ▸ (by decide)
      · exact lineOK_renderDevice d hall l (List.take_subset _ _ h)
    have htake : ((renderDevice d).take k).take 6 = (renderDevice d).take k :=
      List.take_of_length_le (by
        have := List.length_take_le k (renderDevice d)
        omega)
    suffices hdev : ∃ e, parseDevice ((renderDevice d).take k) = .exn e by
      obtain ⟨e, he⟩ := hdev
      refine ⟨e, ?_⟩
      show probeChars (renderTrunc d k) = _
      rw [probeChars_found_one _ _ hclean, parseLoop, htake, he]
    have e1 : splitOn ' ' ("serial: ".data ++ d.serialTok) =
        ["serial:".data, d.serialTok] :=
      splitOn_key_line "serial:".data d.serialTok (by decide)
        (no_space_of_digits _ hs2)
    have e2 : splitOn ' ' ("openocd: ".data ++ d.openocdTok) =
        ["openocd:".data, d.openocdTok] :=
      splitOn_key_line "openocd:".data d.openocdTok (by decide)
        (no_space_of_tokOK _ hot)
    have e3 : splitOn ' ' ("flash: ".data ++ d.flashTok) =
        ["flash:".data, d.flashTok] :=
      splitOn_key_line "flash:".data d.flashTok (by decide)
        (no_space_of_digits _ hf2)
    have e4 : splitOn ' ' ("sram: ".data ++ d.sramTok) =
        ["sram:".data, d.sramTok] :=
      splitOn_key_line "sram:".data d.sramTok (by decide)
        (no_space_of_digits _ hr2)
    have ps := pyIntDec_of_digits _ hs1 hs2
    have pf := pyIntDec_of_digits _ hf1 hf2
    have pr := pyIntDec_of_digits _ hr1 hr2
    interval_cases k
    · exact ⟨.keyError, rfl⟩
    · refine ⟨.keyError, ?_⟩
      have b1 : buildRaw [] ((renderDevice d).take 1) =
          .ok [("serial".data, .pstr d.serialTok)] := by
        show buildRaw [] ["serial: ".data ++ d.serialTok] = _
        simp only [buildRaw, e1]
        simp [setk, dlookup, stripCh, stripBy]
      rw [parseDevice, b1]
      simp only [coerceDevice, getStr, dlookup, setk, ps]
      simp [dlookup, setk, ps]
    · refine ⟨.keyError, ?_⟩
      have b2 : buildRaw [] ((renderDevice d).take 2) =
          .ok [("serial".data, .pstr d.serialTok),
            ("openocd".data, .pstr d.openocdTok)] := by
        show buildRaw [] ["serial: ".data ++ d.serialTok,
          "openocd: ".data ++ d.openocdTok] = _
        simp only [buildRaw, e1, e2]
        simp [setk, dlookup, stripCh, stripBy]
      rw [parseDevice, b2]
      simp only [coerceDevice, getStr, dlookup, setk, ps]
      simp [dlookup, setk, ps]
    · refine ⟨.keyError, ?_⟩
      have b3 : buildRaw [] ((renderDevice d).take 3) =
          .ok [("serial".data, .pstr d.serialTok),
            ("openocd".data, .pstr d.openocdTok),
            ("flash".data, .pstr d.flashTok)] := by
        show buildRaw [] ["serial: ".data ++ d.serialTok,
          "openocd: ".data ++ d.openocdTok, "flash: ".data ++ d.flashTok] = _
        simp only [buildRaw, e1, e2, e3]
        simp [setk, dlookup, stripCh, stripBy]
      rw [parseDevice, b3]
      simp only [coerceDevice, getStr, dlookup, setk, ps, pf]
      simp [dlookup, setk, ps, pf]
    · refine ⟨.keyError, ?_⟩
      have b4 : buildRaw [] ((renderDevice d).take 4) =
          .ok [("serial".data, .pstr d.serialTok),
            ("openocd".data, .pstr d.openocdTok),
            ("flash".data, .pstr d.flashTok),
            ("sram".data, .pstr d.sramTok)] := by
        show buildRaw [] ["serial: ".data ++ d.serialTok,
          "openocd: ".data ++ d.openocdTok, "flash: ".data ++ d.flashTok,
          "sram: ".data ++ d.sramTok] = _
        simp only [buildRaw, e1, e2, e3, e4]
        simp [setk, dlookup, stripCh, stripBy]
      rw [parseDevice, b4]
      simp only [coerceDevice, getStr, dlookup, setk, ps, pf, pr]
      simp [dlookup, setk, ps, pf, pr]
  · intro d c hall hm hbad
    refine ⟨.valueError, probe_single_of_coerce_exn d hall .valueError ?_⟩
    have pnone := pyIntDec_none_of_badchar _ c hm hbad
    simp only [coerceDevice, getStr, rawDict, dlookup, setk, pnone]
    simp [dlookup, setk, pnone]
  · intro d c hall hsd hm hbad
    refine ⟨.valueError, probe_single_of_coerce_exn d hall .valueError ?_⟩
    have ps := pyIntDec_of_digits _ hsd.1 hsd.2
    have pnone := pyIntDec_none_of_badchar _ c hm hbad
    simp only [coerceDevice, getStr, rawDict, dlookup, setk, ps, pnone]
    simp [dlookup, setk, ps, pnone]
  · intro d c hall hsd hfd hm hbad
    refine ⟨.valueError, probe_single_of_coerce_exn d hall .valueError ?_⟩
    have ps := pyIntDec_of_digits _ hsd.1 hsd.2
    have pf := pyIntDec_of_digits _ hfd.1 hfd.2
    have pnone := pyIntDec_none_of_badchar _ c hm hbad
    simp only [coerceDevice, getStr, rawDict, dlookup, setk, ps, pf, pnone]
    simp [dlookup, setk, ps, pf, pnone]
  · intro d c hall hsd hfd hrd hm hbad
    refine ⟨.valueError, probe_single_of_coerce_exn d hall .valueError ?_⟩
    have ps := pyIntDec_of_digits _ hsd.1 hsd.2
    have pf := pyIntDec_of_digits _ hfd.1 hfd.2
    have pr := pyIntDec_of_digits _ hrd.1 hrd.2
    have pnone := pyIntHex_none_of_badchar _ c hm hbad
    simp only [coerceDevice, getStr, rawDict, dlookup, setk, ps, pf, pr, pnone]
    simp [dlookup, setk, ps, pf, pr, pnone]

/-- Witness for the amended C5 at concrete inputs: a block truncated to
three lines (missing `sram`, `chipid`, `descr`) fails, and so do full
blocks whose `serial` value is `12a4`, whose `flash` value is `10z4`,
whose `sram` value is `5$2`, or whose `chipid` value is `zz` — each a
value Python integer coercion rejects. -/
theorem probe_fails_on_missing_or_bad_coerced_field_witness :
    (∃ e, stlink_probe ⟨renderTrunc ⟨"123".data, "\"ab\"".data, "1024".data,
      "512".data, "0x0451".data, "F7".data⟩ 3⟩ = .exn e) ∧
    (∃ e, stlink_probe ⟨render [⟨"12a4".data, "\"ab\"".data, "1024".data,
      "512".data, "0x0451".data, "F7".data⟩]⟩ = .exn e) ∧
    (∃ e, stlink_probe ⟨render [⟨"123".data, "\"ab\"".data, "10z4".data,
      "512".data, "0x0451".data, "F7".data⟩]⟩ = .exn e) ∧
    (∃ e, stlink_probe ⟨render [⟨"123".data, "\"ab\"".data, "1024".data,
      "5$2".data, "0x0451".data, "F7".data⟩]⟩ = .exn e) ∧
    (∃ e, stlink_probe ⟨render [⟨"123".data, "\"ab\"".data, "1024".data,
      "512".data, "zz".data, "F7".data⟩]⟩ = .exn e) :=
  ⟨probe_fails_on_missing_or_bad_coerced_field.1 _ 3 (by decide) (by decide),
   probe_fails_on_missing_or_bad_coerced_field.2.1 _ 'a' (by decide) (by decide)
     (by decide),
   probe_fails_on_missing_or_bad_coerced_field.2.2.1 _ 'z' (by decide) (by decide)
     (by decide) (by decide),
   probe_fails_on_missing_or_bad_coerced_field.2.2.2.1 _ '$' (by decide)
     (by decide) (by decide) (by decide) (by decide),
   probe_fails_on_missing_or_bad_coerced_field.2.2.2.2 _ 'z' (by decide)
     (by decide) (by decide) (by decide) (by decide) (by decide)⟩

/-! ### Persistence claims -/

/-- C6: with a device attached and a `.json` destination, saving under a
given name writes the full record (with `name` set) as one document, and
loading it back from a filesystem holding that document yields a record
equal in all fields to the one that was saved. -/
theorem save_load_roundtrip (attached : Dict) (name fname : List Char)
    (fs : List Char → Option Dict) (h1 : attached ≠ []) (h2 : jsonExt fname = true)
    (hfs : fs fname = some (setk attached "name".data (.pstr name))) :
    save_device attached name fname =
      (setk attached "name".data (.pstr name),
       [.openWrite fname, .writeDoc (setk attached "name".data (.pstr name))],
       .ok ())
    ∧ load_device fs fname =
      (some (setk attached "name".data (.pstr name)), [.openRead fname], .ok ()) := by
  constructor
  · rw [save_device, if_neg h1, if_pos h2]
  · simp only [load_device, if_pos h2, hfs, dlookup_setk_self]

/-- Witness for C6 at a concrete attached record and destination. -/
theorem save_load_roundtrip_witness :
    save_device [("serial".data, .pint 7)] "dev".data "a.json".data =
      ([("serial".data, .pint 7), ("name".data, .pstr "dev".data)],
       [.openWrite "a.json".data,
        .writeDoc [("serial".data, .pint 7), ("name".data, .pstr "dev".data)]],
       .ok ())
    ∧ load_device
        (fun f => if f = "a.json".data then
          some [("serial".data, .pint 7), ("name".data, .pstr "dev".data)]
          else none) "a.json".data =
      (some [("serial".data, .pint 7), ("name".data, .pstr "dev".data)],
       [.openRead "a.json".data], .ok ()) := by
  have h := save_load_roundtrip [("serial".data, .pint 7)] "dev".data
    "a.json".data
    (fun f => if f = "a.json".data then
      some [("serial".data, .pint 7), ("name".data, .pstr "dev".data)]
      else none)
    (by decide) (by decide) (by decide)
  exact ⟨h.1.trans (by decide), h.2.trans (by decide)⟩

/-- C7: with a device attached, save to a destination without the `.json`
extension raises `ValueError` (the invalid-destination failure) with an
empty filesystem trace, and load from such a destination raises the same
with an empty trace — no file is created, written, or opened. -/
theorem invalid_destination_untouched (attached : Dict) (name fname : List Char)
    (fs : List Char → Option Dict) (h1 : attached ≠ []) (h2 : jsonExt fname = false) :
    save_device attached name fname =
      (setk attached "name".data (.pstr name), [], .exn .valueError)
    ∧ load_device fs fname = (none, [], .exn .valueError) := by
  constructor
  · rw [save_device, if_neg h1, if_neg (by simp [h2])]
  · rw [load_device, if_neg (by simp [h2])]

/-- Witness for C7 at a concrete attached record and `.txt` destination. -/
theorem invalid_destination_untouched_witness :
    save_device [("serial".data, .pint 7)] "dev".data "a.txt".data =
      ([("serial".data, .pint 7), ("name".data, .pstr "dev".data)],
       [], .exn .valueError)
    ∧ load_device (fun _ => none) "a.txt".data = (none, [], .exn .valueError) := by
  have h := invalid_destination_untouched [("serial".data, .pint 7)] "dev".data
    "a.txt".data (fun _ => none) (by decide) (by decide)
  exact ⟨h.1.trans (by decide), h.2⟩

/-- Counterexample to C8 as stated: with no device attached,
`save_device` does not fail — it performs no write, prints a notice and
returns normally, even with a valid `.json` destination. -/
theorem save_no_device_returns_ok :
    save_device [] "dev".data "device.json".data = ([], [], .ok ()) := rfl

/-- C8 (amended): a save with no attached device performs no filesystem
access and raises no error, whatever the destination: the method prints
a notice and returns normally. -/
theorem save_no_device_silent (name fname : List Char) :
    save_device [] name fname = ([], [], .ok ()) := by
  rw [save_device, if_pos rfl]

/-- Witness for the amended C8 at a concrete name and `.json` destination. -/
theorem save_no_device_silent_witness :
    save_device [] "dev".data "device.json".data = ([], [], .ok ()) :=
  save_no_device_silent "dev".data "device.json".data

/-- C10: with a device attached and a destination lacking the `.json`
extension, `save_device` still mutates the in-memory attached device —
the `name` field is assigned before the extension is validated — while
the save itself raises the invalid-destination error. -/
theorem save_mutates_before_validation (attached : Dict) (name fname : List Char)
    (h1 : attached ≠ []) (h2 : jsonExt fname = false) :
    (save_device attached name fname).1 = setk attached "name".data (.pstr name) ∧
    dlookup "name".data (save_device attached name fname).1 = some (.pstr name) ∧
    (save_device attached name fname).2.2 = .exn .valueError := by
  refine ⟨?_, ?_, ?_⟩ <;> rw [save_device, if_neg h1, if_neg (by simp [h2])]
  exact dlookup_setk_self attached "name".data (.pstr name)

/-- Witness for C10 at a concrete attached record and `.txt` destination. -/
theorem save_mutates_before_validation_witness :
    (save_device [("serial".data, .pint 7)] "dev".data "a.txt".data).1 =
      setk [("serial".data, .pint 7)] "name".data (.pstr "dev".data) ∧
    dlookup "name".data
      (save_device [("serial".data, .pint 7)] "dev".data "a.txt".data).1 =
      some (.pstr "dev".data) ∧
    (save_device [("serial".data, .pint 7)] "dev".data "a.txt".data).2.2 =
      .exn .valueError :=
  save_mutates_before_validation [("serial".data, .pint 7)] "dev".data
    "a.txt".data (by decide) (by decide)

/-! ### USB resolution claims -/

/-- The serial reported by the scoped serial-read at a port (meaningful
when that read returns normally). -/
def serialValue (env : USBEnv) (p : List Char) : Int :=
  match get_serial_number (env.serialRead p) with
  | .ok n => n
  | .exn _ => 0

theorem portScan_spec (env : USBEnv) (serial : Int) (l : List (List Char))
    (hwf : ∀ d ∈ l, 5 ≤ ((splitOn '/' d).filter (· ≠ [])).length)
    (hok : ∀ d ∈ l, ∃ k, get_serial_number (env.serialRead (portOf d)) = .ok k) :
    portScan env serial l =
      .ok ((l.find? (fun d => serialValue env (portOf d) == serial)).map portOf) := by
  induction l with
  | nil => rfl
  | cons dstr rest ih =>
    obtain ⟨k, hk⟩ := hok dstr (by simp)
    have h5 := hwf dstr (by simp)
    have h3 : ∃ b, ((splitOn '/' dstr).filter (· ≠ [])).get? 3 = some b := by
      apply Option.ne_none_iff_exists'.mp
      intro hn
      rw [List.get?_eq_none] at hn
      omega
    have h4 : ∃ a, ((splitOn '/' dstr).filter (· ≠ [])).get? 4 = some a := by
      apply Option.ne_none_iff_exists'.mp
      intro hn
      rw [List.get?_eq_none] at hn
      omega
    obtain ⟨b, hb⟩ := h3
    obtain ⟨a, ha⟩ := h4
    have hport : portOf dstr = b ++ ":".data ++ a := by
      rw [portOf, List.getD_eq_getElem?_getD, List.getD_eq_getElem?_getD,
        ← List.get?_eq_getElem?, ← List.get?_eq_getElem?, hb, ha]
      rfl
    have hksv : serialValue env (portOf dstr) = k := by
      rw [serialValue, hk]
    rw [hport] at hk
    rw [List.find?_cons]
    by_cases heq : serial = k
    · have hbeq : (serialValue env (portOf dstr) == serial) = true := by
        rw [hksv, heq]
        exact beq_self_eq_true k
      simp only [portScan, hb, ha, hk, if_pos heq, hbeq, Option.map_some']
      rw [hport]
    · have hbeq : (serialValue env (portOf dstr) == serial) = false := by
        rw [hksv]
        exact beq_eq_false_iff_ne.mpr (fun he => heq he.symm)
      simp only [portScan, hb, ha, hk, if_neg heq, hbeq]
      exact ih (fun x hx => hwf x (List.mem_cons_of_mem _ hx))
        (fun x hx => hok x (List.mem_cons_of_mem _ hx))

/-- C3: `get_port_from_serial` re-derives each enumerated entry's
`bus:addr` port, queries the scoped serial-read there, and returns the
port of the first entry whose reported serial equals the target — and
`None` when no entry matches, even when other ST-Link-vendor entries are
present on the bus. -/
theorem resolve_location_first_match (env : USBEnv) (serial : Int)
    (hwf : ∀ d ∈ env.devices, 5 ≤ ((splitOn '/' d).filter (· ≠ [])).length)
    (hok : ∀ d ∈ env.devices,
      ∃ k, get_serial_number (env.serialRead (portOf d)) = .ok k) :
    get_port_from_serial env serial =
      .ok ((env.devices.find?
        (fun d => serialValue env (portOf d) == serial)).map portOf) :=
  portScan_spec env serial env.devices hwf hok

/-- Witness for C3: two enumerated ST-Link entries, both reporting serial
777; the scan returns the first match, as the `bus:addr` string `3:12`. -/
theorem resolve_location_first_match_witness :
    get_port_from_serial
      ⟨["/dev/bus/usb/3/12".data, "/dev/bus/usb/3/14".data],
       fun _ => ⟨0, "777".data⟩⟩ 777 = .ok (some "3:12".data) := by
  have h := resolve_location_first_match
    ⟨["/dev/bus/usb/3/12".data, "/dev/bus/usb/3/14".data],
     fun _ => ⟨0, "777".data⟩⟩ 777 (by decide) (fun d _ => ⟨777, rfl⟩)
  exact h.trans (by decide)

theorem portScan_ne_nil (env : USBEnv) (serial : Int) (l : List (List Char))
    (p : List Char) (h : portScan env serial l = .ok (some p)) : p ≠ [] := by
  induction l with
  | nil => cases h
  | cons dstr rest ih =>
    rw [portScan] at h
    rcases h3 : ((splitOn '/' dstr).filter (· ≠ [])).get? 3 with _ | b <;>
      rcases h4 : ((splitOn '/' dstr).filter (· ≠ [])).get? 4 with _ | a <;>
      simp only [h3, h4] at h
    · cases h
    · cases h
    · cases h
    · rcases hg : get_serial_number (env.serialRead (b ++ ":".data ++ a)) with n | e <;>
        simp only [hg] at h
      · by_cases heq : serial = n
        · rw [if_pos heq] at h
          cases h
          intro hp
          have hlen := congrArg List.length hp
          simp [List.length_append] at hlen
        · rw [if_neg heq] at h
          exact ih h
      · cases h

/-- C2: when the cheap confirm (scoped serial-read at the cached port)
reports a serial different from the attached device's, the constructor
reconciliation performs the full `get_port_from_serial` scan; if the scan
finds a port it updates the cached `usb_port` to it and succeeds, and if
the scan finds nothing it raises `ConnectionError` (device missing)
instead of proceeding. -/
theorem reconcile_on_mismatch (env : USBEnv) (dev : Attached) (n : Int)
    (hread : get_serial_number (env.serialRead dev.usb_port) = .ok n)
    (hmis : dev.serial ≠ n) :
    (∀ p, get_port_from_serial env dev.serial = .ok (some p) →
        stlink_init env dev = .ok { dev with usb_port := p }) ∧
    (get_port_from_serial env dev.serial = .ok none →
        stlink_init env dev = .exn .connectionError) := by
  constructor
  · intro p hp
    have hne : p ≠ [] := portScan_ne_nil env dev.serial env.devices p hp
    simp only [stlink_init, hread, if_pos hmis, hp, if_neg hne]
  · intro hp
    simp only [stlink_init, hread, if_pos hmis, hp]

/-- Witness for C2: the cached location `3:12` is stale (it reads serial
111), the full scan finds serial 777 at `3:14`, and the cached location
is updated there. -/
theorem reconcile_on_mismatch_witness :
    stlink_init
      ⟨["/dev/bus/usb/3/14".data],
       fun p => if p = "3:14".data then ⟨0, "777".data⟩ else ⟨0, "111".data⟩⟩
      ⟨777, "3:12".data, "nucleo".data⟩ =
      .ok ⟨777, "3:14".data, "nucleo".data⟩ := by
  have h := (reconcile_on_mismatch
    ⟨["/dev/bus/usb/3/14".data],
     fun p => if p = "3:14".data then ⟨0, "777".data⟩ else ⟨0, "111".data⟩⟩
    ⟨777, "3:12".data, "nucleo".data⟩ 111 (by decide) (by decide)).1
    "3:14".data (by decide)
  exact h.trans (by decide)

/-! ### C9: surfacing of non-zero tool exit statuses -/

/-- Counterexample to C9 as stated: a non-zero exit status is not always
surfaced — `get_serial_number` converts it into the ordinary sentinel
value `-1` (indistinguishable from a successful read printing `-1`), and
`STLink.flash`/`erase`/`reset` ignore the exit status entirely, returning
normally. -/
theorem tool_failure_swallowed :
    get_serial_number ⟨1, "ignored".data⟩ = .ok (-1) ∧
    get_serial_number ⟨1, "ignored".data⟩ = get_serial_number ⟨0, "-1".data⟩ ∧
    (stlink_flash "3:12".data "fw.bin".data "0x08000000".data ⟨1, []⟩).2 = .ok () ∧
    (stlink_erase "3:12".data ⟨1, []⟩).2 = .ok () ∧
    (stlink_reset "3:12".data ⟨1, []⟩).2 = .ok () :=
  ⟨rfl, by decide, rfl, rfl, rfl⟩

/-- C9 (amended): only `STM32BinaryFlasher.flash_device` surfaces a
non-zero exit status (raising `RuntimeError`); `get_serial_number` maps a
non-zero exit to the ordinary sentinel `-1`, and the `STLink`
flash/erase/reset methods ignore the subprocess result entirely, their
outcome not depending on it. -/
theorem tool_failure_surfacing :
    (∀ (root file addr : List Char) (res : ToolResult), res.returncode ≠ 0 →
      flash_device root file addr res = .exn .runtimeError) ∧
    (∀ res : ToolResult, res.returncode ≠ 0 → get_serial_number res = .ok (-1)) ∧
    (∀ (port b l : List Char) (res res2 : ToolResult),
      (stlink_flash port b l res).2 = (stlink_flash port b l res2).2 ∧
      (stlink_erase port res).2 = (stlink_erase port res2).2 ∧
      (stlink_reset port res).2 = (stlink_reset port res2).2) := by
  refine ⟨?_, ?_, ?_⟩
  · intro root file addr res h
    rw [flash_device, if_pos h]
  · intro res h
    rw [get_serial_number, if_neg h]
  · intro port b l res res2
    exact ⟨rfl, rfl, rfl⟩

/-- Witness for the amended C9 at concrete failing subprocess results. -/
theorem tool_failure_surfacing_witness :
    flash_device "bin".data "fw.bin".data "0x08000000".data ⟨1, []⟩ =
      .exn .runtimeError ∧
    get_serial_number ⟨2, "5".data⟩ = .ok (-1) :=
  ⟨tool_failure_surfacing.1 _ _ _ _ (by decide),
   tool_failure_surfacing.2.1 _ (by decide)⟩

end STM32Flasher
